import Mathlib

/-!
Verification of the Valdi `AssetsManager` coordination engine
(`src/valdi/src/valdi/runtime/Resources/AssetsManager.cpp`).

This file gives a shallow embedding of the manager's data model and of the
operations relevant to the stated properties, translated from the C++ source.
Shared objects (`ManagedAsset`, `AssetConsumer`, `AssetLoaderRequestHandler`)
are modelled as values held in association lists keyed by their identity
(the asset key, or a numeric id standing for the C++ pointer identity).
Asynchronous dispatches (worker-queue tasks, main-thread drains) are not
executed inside the embedded operations; their observable effect under the
manager's lock — enqueued keys, scheduled flags — is what the state records.
-/

namespace Valdi

/-- Error carried by a failed `Result`. The C++ `Error` wraps a formatted
message; the message text is modelled as a plain string. -/
inductive Error
  | msg (s : String)
deriving DecidableEq

/-- The C++ `Result<T>`: a value, an error, or default-constructed empty.
`operator bool` is true exactly on a value; `.empty()` is true exactly on
the default-constructed state. -/
inductive Result (α : Type)
  | ok (v : α)
  | err (e : Error)
  | empty
deriving DecidableEq

/-- `operator bool` of `Result`: holds a value. -/
def Result.toBool : Result α → Bool
  | .ok _ => true
  | _ => false

/-- `Result::empty()`. -/
def Result.isEmpty : Result α → Bool
  | .empty => true
  | _ => false

/-- `Result::error()`; the C++ call is only made on non-value results, so the
empty case yields a placeholder error. -/
def Result.errorOf : Result α → Error
  | .err e => e
  | _ => Error.msg ""

/-- Whether the result holds exactly the given value (models
`result.value() == v` evaluated on a result known to hold a value). -/
def Result.holdsValue [DecidableEq α] : Result α → α → Bool
  | .ok v, w => decide (v = w)
  | _, _ => false

/-- Whether the result holds a success value. -/
def Result.isOkB : Result α → Bool
  | .ok _ => true
  | _ => false

/-- Whether the result holds an error. -/
def Result.isErrB : Result α → Bool
  | .err _ => true
  | _ => false

/-- Modelled from the spec (§3, `Bundle` consumed interface; the `Bundle`
header is not under `src/`): the part of a bundle the manager consults —
its name and whether it ships remote assets. -/
structure BundleRef where
  name : String
  hasRemoteAssets : Bool
deriving DecidableEq

/-- Modelled from the spec (§3, the `AssetKey` header is not under `src/`):
an asset key is either `(bundle, path)` or a URL. Equality is structural. -/
inductive AssetKey
  | bundled (bundle : BundleRef) (path : String)
  | url (u : String)
deriving DecidableEq

/-- `AssetKey::isURL()`. -/
def AssetKey.isURL : AssetKey → Bool
  | .url _ => true
  | .bundled _ _ => false

/-- `AssetKey::getUrl()` (empty for bundled keys). -/
def AssetKey.getUrl : AssetKey → String
  | .url u => u
  | .bundled _ _ => ""

/-- `AssetKey::getPath()` (empty for URL keys). -/
def AssetKey.getPath : AssetKey → String
  | .bundled _ p => p
  | .url _ => ""

/-- `AssetKey::getBundle()->getName()` (only called on bundled keys). -/
def AssetKey.bundleName : AssetKey → String
  | .bundled b _ => b.name
  | .url _ => ""

/-- `AssetLocation(url, isLocal)`. -/
structure AssetLocation where
  url : String
  isLocal : Bool
deriving DecidableEq

/-- A decoded artifact (`Ref<LoadedAsset>` contents are opaque to the
manager); a numeric id stands for the object identity. The C++ `Ref` can be
null, modelled as `Option LoadedAsset` at use sites. -/
inductive LoadedAsset
  | mk (id : Nat)
deriving DecidableEq

/-- `AssetState` of a `ManagedAsset`. -/
inductive AssetState
  | initial
  | resolvingLocation
  | ready
  | failedRetryable
  | failedPermanently
deriving DecidableEq

/-- `AssetConsumerState`. -/
inductive AssetConsumerState
  | initial
  | loading
  | loaded
  | failed
  | removed
deriving DecidableEq

/-- Modelled from the spec (§3, the `AssetConsumer` header is not under
`src/`): one observer's registered interest. `observer` is the weak observer
handle (a numeric id stands for the observer identity; `none` means cleared),
`requestHandler` is the id of the `AssetLoaderRequestHandler` currently held
as the consumer's `AssetLoaderCompletion` (`none` for null). -/
structure AssetConsumer where
  observer : Option Nat
  outputType : Nat
  preferredWidth : Int
  preferredHeight : Int
  attachedData : Nat
  state : AssetConsumerState
  loadedAsset : Result (Option LoadedAsset)
  notified : Bool
  requestHandler : Option Nat
deriving DecidableEq

/-- Modelled from the spec (§3, the `AssetLoaderRequestHandler` header is not
under `src/`): the fields of one in-flight load that the manager reads and
writes in `AssetsManager.cpp`. -/
structure AssetLoaderRequestHandler where
  assetKey : AssetKey
  requestedWidth : Int
  requestedHeight : Int
  attachedData : Nat
  consumersCount : Nat
  scheduledForLoad : Bool
  scheduledForCancelation : Bool
  lastLoadResult : Result (Option LoadedAsset)
deriving DecidableEq

/-- Modelled from the spec (§3, the `ManagedAsset` header is not under
`src/`): the manager's per-key record. `hasObservable` models
`getObservable() != nullptr`; `payloadCaches` models the map from loader
identity to an opaque cache blob. -/
structure ManagedAsset where
  state : AssetState
  resolveId : Nat
  resolvedAssetLocation : Result AssetLocation
  consumers : List AssetConsumer
  hasObservable : Bool
  payloadCaches : List (Nat × Nat)
deriving DecidableEq

/-- Modelled from the spec: a freshly constructed `ManagedAsset`
(`makeShared<ManagedAsset>()`): state `Initial`, no resolution, no
consumers, no observable. -/
def ManagedAsset.fresh : ManagedAsset :=
  { state := .initial
    resolveId := 0
    resolvedAssetLocation := .empty
    consumers := []
    hasObservable := false
    payloadCaches := [] }

/-- The mutable manager state guarded by the reentrant mutex, as read and
written by `AssetsManager.cpp`. `handlers` is the store of live
`AssetLoaderRequestHandler` objects keyed by identity; `hasListener` models
`_listener != nullptr`; `bytesStoreUrls` models the registered URLs of the
lazily created `AssetBytesStore` (`none` when `_assetBytesStore == nullptr`). -/
structure ManagerState where
  assets : List (AssetKey × ManagedAsset)
  handlers : List (Nat × AssetLoaderRequestHandler)
  pendingLoadRequests : List Nat
  pendingLoadRequestsScheduled : Bool
  scheduledUpdates : List AssetKey
  pauseUpdatesCount : Nat
  assetResolveIdSequence : Nat
  removeUnusedLocalAssets : Bool
  hasListener : Bool
  bytesStoreUrls : Option (List String)
deriving DecidableEq

section AssocList

variable {κ : Type} {α : Type} [DecidableEq κ]

/-- Lookup in an association list (models `std::unordered_map::find`). -/
def assocGet (l : List (κ × α)) (k : κ) : Option α :=
  (l.find? fun p => decide (p.1 = k)).map Prod.snd

/-- Update-or-insert in an association list (models `map[k] = v` /
mutating the object a pointer refers to). Present entries are updated in
place; absent keys are appended. -/
def assocSet (l : List (κ × α)) (k : κ) (v : α) : List (κ × α) :=
  if (assocGet l k).isSome then
    l.map fun p => if p.1 = k then (k, v) else p
  else
    l ++ [(k, v)]

/-- Erasure from an association list (models `map.erase(it)`). -/
def assocErase (l : List (κ × α)) (k : κ) : List (κ × α) :=
  l.filter fun p => decide (p.1 ≠ k)

end AssocList

/-- `AssetsManager::scheduleFlushLoadRequests` (lines 808–813): if no flush
task is in flight and there are pending load requests, mark one scheduled.
The worker-queue dispatch of `flushLoadRequests` runs asynchronously; the
flag is its under-lock effect. -/
def scheduleFlushLoadRequests (s : ManagerState) : ManagerState :=
  if ¬ s.pendingLoadRequestsScheduled ∧ s.pendingLoadRequests ≠ [] then
    { s with pendingLoadRequestsScheduled := true }
  else
    s

/-- Lines 652–661 of `AssetsManager::updateConsumerRequestHandler`: the
outgoing handler's refcount is decremented; when it drops to zero and the
handler is not already marked for cancelation, it is marked and appended to
the pending queue, and a flush is scheduled. -/
def releaseExistingRequest (s : ManagerState) (existingRequest : Option Nat) :
    ManagerState :=
  match existingRequest with
  | none => s
  | some hid =>
    match assocGet s.handlers hid with
    | none => s
    | some h =>
      let h1 := { h with consumersCount := h.consumersCount - 1 }
      if h1.consumersCount = 0 ∧ ¬ h1.scheduledForCancelation then
        let h2 := { h1 with scheduledForCancelation := true }
        scheduleFlushLoadRequests
          { s with
            handlers := assocSet s.handlers hid h2
            pendingLoadRequests := s.pendingLoadRequests ++ [hid] }
      else
        { s with handlers := assocSet s.handlers hid h1 }

/-- Lines 663–673 of `updateConsumerRequestHandler`: the incoming handler's
refcount is incremented; when it is not yet marked for load, it is marked
and appended to the pending queue, and a flush is scheduled. -/
def retainIncomingRequest (s : ManagerState) (request : Option Nat) :
    ManagerState :=
  match request with
  | none => s
  | some rid =>
    match assocGet s.handlers rid with
    | none => s
    | some h =>
      let h1 := { h with consumersCount := h.consumersCount + 1 }
      if ¬ h1.scheduledForLoad then
        let h2 := { h1 with scheduledForLoad := true }
        scheduleFlushLoadRequests
          { s with
            handlers := assocSet s.handlers rid h2
            pendingLoadRequests := s.pendingLoadRequests ++ [rid] }
      else
        { s with handlers := assocSet s.handlers rid h1 }

/-- `AssetsManager::updateConsumerRequestHandler` (lines 647–674) proper:
replace the consumer's request handler, then handle the outgoing and the
incoming handler in that order. -/
def updateConsumerRequestHandler (s : ManagerState) (assetConsumer : AssetConsumer)
    (request : Option Nat) : ManagerState × AssetConsumer :=
  let existingRequest := assetConsumer.requestHandler
  let assetConsumer := { assetConsumer with requestHandler := request }
  let s := releaseExistingRequest s existingRequest
  let s := retainIncomingRequest s request
  (s, assetConsumer)

/-- The state effect of `AssetsManager::scheduleAssetUpdate` outside a
transaction (lines 304–325): the key is appended to `_scheduledUpdates`.
When this makes the queue non-empty with updates unpaused, the code triggers
a drain — inline on the main thread, otherwise via a main-thread dispatch;
the drain itself (`performUpdates`) runs as a separate step and is not
folded into this operation. -/
def scheduleAssetUpdateOutside (s : ManagerState) (assetKey : AssetKey) :
    ManagerState :=
  { s with scheduledUpdates := s.scheduledUpdates ++ [assetKey] }

/-- `AssetsManager::getOrCreateManagedAsset` (lines 936–944). -/
def getOrCreateManagedAsset (s : ManagerState) (assetKey : AssetKey) :
    ManagerState × ManagedAsset :=
  match assocGet s.assets assetKey with
  | some m => (s, m)
  | none =>
    let m := ManagedAsset.fresh
    ({ s with assets := assocSet s.assets assetKey m }, m)

/-- The consumer-reset loop of `AssetsManager::setResolvedAssetLocation`
(lines 125–131): each consumer's result is cleared, its state set back to
`Initial`, its `notified` flag cleared, and its request handler dropped
through `updateConsumerRequestHandler`, threading the manager state. -/
def resetConsumersGo (s : ManagerState) :
    List AssetConsumer → ManagerState × List AssetConsumer
  | [] => (s, [])
  | c :: rest =>
    let c1 := { c with
      loadedAsset := Result.empty
      state := AssetConsumerState.initial
      notified := false }
    let sc := updateConsumerRequestHandler s c1 none
    let rec2 := resetConsumersGo sc.1 rest
    (rec2.1, sc.2 :: rec2.2)

/-- `AssetsManager::setResolvedAssetLocation` (lines 115–142). -/
def setResolvedAssetLocation (s : ManagerState) (assetKey : AssetKey)
    (assetLocation : AssetLocation) : ManagerState :=
  let ga := getOrCreateManagedAsset s assetKey
  let s0 := ga.1
  let asset := ga.2
  if asset.state = AssetState.ready ∧
      Result.holdsValue asset.resolvedAssetLocation assetLocation then
    -- Nothing to do
    s0
  else
    let rc :=
      if asset.state = AssetState.ready then resetConsumersGo s0 asset.consumers
      else (s0, asset.consumers)
    let asset1 := { asset with
      consumers := rc.2
      resolveId := 0
      payloadCaches := []
      resolvedAssetLocation := Result.ok assetLocation
      state := AssetState.ready }
    let s2 := { rc.1 with assets := assocSet rc.1.assets assetKey asset1 }
    if asset1.consumers ≠ [] then scheduleAssetUpdateOutside s2 assetKey else s2

/-- `AssetsManager::getResolvedAssetLocation` (lines 100–113): returns the
resolved location when the managed asset exists and its stored result holds
a value; otherwise `nullopt`. The C++ function only reads under the lock,
which the `ManagerState → Option` shape reflects. -/
def getResolvedAssetLocation (s : ManagerState) (assetKey : AssetKey) :
    Option AssetLocation :=
  match assocGet s.assets assetKey with
  | none => none
  | some managedAsset =>
    match managedAsset.resolvedAssetLocation with
    | .ok v => some v
    | _ => none

/-- Modelled from the spec (§6, the `RemoteModuleResources` header is not
under `src/`): a fetched module's resource map. `getResourceCacheUrl` is a
lookup into `cacheUrls`; `getAllUrls` is the whole map. -/
structure RemoteModuleResources where
  cacheUrls : List (String × String)
deriving DecidableEq

/-- The `IResourceLoader` collaborator: `resolveLocalAssetURL(module, path)`,
where the empty string means not found; `none` models
`_resourceLoader == nullptr`. -/
def ResourceLoaderFn : Type := Option (String → String → String)

/-- `AssetsManager::updateAssetLocation` (lines 439–460): on a successful
resolution, state `Ready` with the location as the stored value; on a failed
one, state `FailedPermanently` with the error. -/
def updateAssetLocation (managedAsset : ManagedAsset)
    (assetLocation : Result AssetLocation) : ManagedAsset :=
  if assetLocation.toBool then
    { managedAsset with
      state := AssetState.ready
      resolvedAssetLocation := assetLocation }
  else
    { managedAsset with
      state := AssetState.failedPermanently
      resolvedAssetLocation := Result.err assetLocation.errorOf }

/-- `AssetsManager::resolveRemoteAssetLocation` (lines 381–410). -/
def resolveRemoteAssetLocation (resourceLoader : ResourceLoaderFn)
    (assetKey : AssetKey) (result : Result RemoteModuleResources) :
    Result AssetLocation :=
  if ¬ result.toBool then
    Result.err result.errorOf
  else
    match result with
    | .ok res =>
      match assocGet res.cacheUrls assetKey.getPath with
      | some cacheUrl => Result.ok (AssetLocation.mk cacheUrl false)
      | none =>
        let fallback : Result AssetLocation :=
          Result.err (Error.msg
            ("Did not find asset '" ++ assetKey.getPath ++
              "' in remote module '" ++ assetKey.bundleName ++
              "', candidates are: " ++
              String.intercalate ", " (res.cacheUrls.map Prod.fst)))
        match resourceLoader with
        | some rl =>
          let u := rl assetKey.bundleName assetKey.getPath
          if u ≠ "" then Result.ok (AssetLocation.mk u true) else fallback
        | none => fallback
    | _ => Result.err result.errorOf

/-- `AssetsManager::resolveLocalAssetLocation` (lines 412–422). -/
def resolveLocalAssetLocation (resourceLoader : ResourceLoaderFn)
    (assetKey : AssetKey) : Result AssetLocation :=
  let fallback : Result AssetLocation :=
    Result.err (Error.msg
      ("Did not find asset '" ++ assetKey.getPath ++ "' in local module '" ++
        assetKey.bundleName ++ "'"))
  match resourceLoader with
  | some rl =>
    let u := rl assetKey.bundleName assetKey.getPath
    if u ≠ "" then Result.ok (AssetLocation.mk u true) else fallback
  | none => fallback

/-- `AssetsManager::onLoadingRemoteResourcesCompleted` (lines 462–497): under
the lock, a completion for a removed asset or a stale `resolveId` is dropped;
a failed remote fetch makes the asset `FailedRetryable` with the fetch error;
otherwise the resolved location is applied through `updateAssetLocation`.
In both non-stale cases the key is re-enqueued. -/
def onLoadingRemoteResourcesCompleted (resourceLoader : ResourceLoaderFn)
    (s : ManagerState) (assetKey : AssetKey)
    (result : Result RemoteModuleResources) (resolveId : Nat) : ManagerState :=
  let resolvedAssetLocation := resolveRemoteAssetLocation resourceLoader assetKey result
  match assocGet s.assets assetKey with
  | none => s
  | some managedAsset =>
    if managedAsset.resolveId ≠ resolveId then
      s
    else
      let managedAsset1 :=
        if result.toBool then
          updateAssetLocation managedAsset resolvedAssetLocation
        else
          { managedAsset with
            state := AssetState.failedRetryable
            resolvedAssetLocation := Result.err result.errorOf }
      scheduleAssetUpdateOutside
        { s with assets := assocSet s.assets assetKey managedAsset1 } assetKey

/-- `AssetsManager::resolveLocalAssetLocationAndUpdate` (lines 424–437). -/
def resolveLocalAssetLocationAndUpdate (resourceLoader : ResourceLoaderFn)
    (s : ManagerState) (assetKey : AssetKey) (resolveId : Nat) : ManagerState :=
  let location := resolveLocalAssetLocation resourceLoader assetKey
  match assocGet s.assets assetKey with
  | none => s
  | some managedAsset =>
    if managedAsset.resolveId ≠ resolveId then
      s
    else
      scheduleAssetUpdateOutside
        { s with
          assets := assocSet s.assets assetKey
            (updateAssetLocation managedAsset location) }
        assetKey

/-- The loop of `getNextConsumerToUpdate` (lines 499–545), with
`consumerToUpdate` as the accumulator. The C++ `hasMore` out-parameter is
overwritten to `false` after the loop, so the returned flag is `true` exactly
on the early return inside the switch; the `hasMore = true` assignment in the
cleared-observer skip branch has no other observable effect and is therefore
not threaded. -/
def getNextConsumerGo :
    Option AssetConsumer → List AssetConsumer → Option AssetConsumer × Bool
  | consumerToUpdate, [] => (consumerToUpdate, false)
  | consumerToUpdate, consumer :: rest =>
    if consumer.observer = none ∧ consumerToUpdate.isSome then
      -- `hasMore = true; continue;`
      getNextConsumerGo consumerToUpdate rest
    else
      let consumerToUpdate :=
        if consumer.observer = none then some consumer else consumerToUpdate
      if consumer.notified then
        getNextConsumerGo consumerToUpdate rest
      else
        match consumer.state with
        | .initial | .failed | .loaded =>
          match consumerToUpdate with
          | none => getNextConsumerGo (some consumer) rest
          | some a =>
            -- `hasMore = true;` then the non-removal consumer takes
            -- priority over processing of observer removal
            (some (if a.observer = none then consumer else a), true)
        | .loading | .removed => getNextConsumerGo consumerToUpdate rest

/-- `getNextConsumerToUpdate` (lines 499–545): the consumer the update step
will advance next, and the `hasMore` flag. -/
def getNextConsumerToUpdate (managedAsset : ManagedAsset) :
    Option AssetConsumer × Bool :=
  getNextConsumerGo none managedAsset.consumers

/-- `AssetsManager::onConsumerLoad` (lines 790–806). -/
def onConsumerLoad (assetConsumer : AssetConsumer)
    (result : Result (Option LoadedAsset)) : AssetConsumer :=
  let assetConsumer := { assetConsumer with notified := false }
  if result.toBool then
    match result with
    | .ok (some loadedAsset) =>
      { assetConsumer with
        state := AssetConsumerState.loaded
        loadedAsset := Result.ok (some loadedAsset) }
    | _ =>
      { assetConsumer with
        state := AssetConsumerState.failed
        loadedAsset := Result.err (Error.msg "AssetLoader provided a null asset") }
  else
    { assetConsumer with
      state := AssetConsumerState.failed
      loadedAsset := Result.err result.errorOf }

/-- `AssetsManager::onLoad` (lines 756–788): the loader's completion on the
worker thread, identified by the request handler's id. A completion for a
missing managed asset or a cancel-scheduled request is dropped; otherwise the
result is cached on the handler, delivered to every consumer currently
pointing at this handler, and the key is re-enqueued. -/
def onLoad (s : ManagerState) (requestId : Nat)
    (result : Result (Option LoadedAsset)) : ManagerState :=
  match assocGet s.handlers requestId with
  | none => s
  | some request =>
    let assetKey := request.assetKey
    match assocGet s.assets assetKey with
    | none => s
    | some managedAsset =>
      if request.scheduledForCancelation then
        s
      else
        let s := { s with
          handlers := assocSet s.handlers requestId
            { request with lastLoadResult := result } }
        let consumers1 := managedAsset.consumers.map fun c =>
          if c.requestHandler = some requestId then onConsumerLoad c result else c
        let s := { s with
          assets := assocSet s.assets assetKey
            { managedAsset with consumers := consumers1 } }
        scheduleAssetUpdateOutside s assetKey

/-- Modelled from the spec (§6, the `AssetBytesStore` header is not under
`src/`): the fixed synthetic URL scheme under which the bytes store serves
in-memory buffers; the constant is opaque. -/
def assetBytesScheme : String := "valdibytes://"

/-- Modelled from the spec: `AssetBytesStore::isAssetBytesUrl`. -/
def isAssetBytesUrl (u : String) : Bool :=
  assetBytesScheme.isPrefixOf u

/-- `AssetsManager::removeManagedAssetIfNeeded` (lines 284–302): removable
iff the key is a URL (or local-asset eviction is enabled), there are no
consumers and no live observable; removal erases the index entry and
unregisters the URL from the bytes store when it belongs to it. -/
def removeManagedAssetIfNeeded (s : ManagerState) (assetKey : AssetKey)
    (managedAsset : ManagedAsset) : ManagerState × Bool :=
  if (¬ assetKey.isURL ∧ ¬ s.removeUnusedLocalAssets) ∨
      managedAsset.consumers ≠ [] ∨ managedAsset.hasObservable then
    (s, false)
  else
    let s := { s with assets := assocErase s.assets assetKey }
    let s :=
      match s.bytesStoreUrls with
      | some urls =>
        if isAssetBytesUrl assetKey.getUrl then
          { s with bytesStoreUrls := some (urls.filter fun u => u ≠ assetKey.getUrl) }
        else s
      | none => s
    (s, true)

/-- The state-machine dispatch a non-removed asset receives in
`AssetsManager::updateAsset`. -/
inductive UpdateDispatch
  | resolveLocation
  | updateConsumers
deriving DecidableEq

/-- Outcome of one `updateAsset` step: the manager state after the removal
check, whether the asset was removed, which dispatch the non-removed branch
selects (recorded rather than performed, the dispatched operations being
modelled separately), and whether `onManagedAssetUpdated` is delivered to
the listener. -/
structure UpdateAssetResult where
  state : ManagerState
  removed : Bool
  dispatch : Option UpdateDispatch
  listenerNotified : Bool
deriving DecidableEq

/-- `AssetsManager::updateAsset` (lines 251–282): look up the asset; try the
removal; when not removed, dispatch on the asset state (`Initial` with
consumers resolves the location, the three resolved states fan out to
consumers, `ResolvingLocation` waits); finally — removed or not — notify the
listener when one is set. -/
def updateAsset (s : ManagerState) (assetKey : AssetKey) : UpdateAssetResult :=
  match assocGet s.assets assetKey with
  | none =>
    { state := s, removed := false, dispatch := none, listenerNotified := false }
  | some managedAsset =>
    let rm := removeManagedAssetIfNeeded s assetKey managedAsset
    let dispatch : Option UpdateDispatch :=
      if rm.2 then none
      else
        match managedAsset.state with
        | .initial =>
          if managedAsset.consumers ≠ [] then some .resolveLocation else none
        | .resolvingLocation => none
        | .ready | .failedRetryable | .failedPermanently => some .updateConsumers
    { state := rm.1
      removed := rm.2
      dispatch := dispatch
      listenerNotified := s.hasListener }

/-- The location/state invariant of one `ManagedAsset` (spec §8, property 1):
`Ready` implies the stored resolution is a success value; the two failed
states imply it is an error. -/
def assetLocationInvariant (m : ManagedAsset) : Prop :=
  (m.state = AssetState.ready → m.resolvedAssetLocation.isOkB = true) ∧
  ((m.state = AssetState.failedRetryable ∨ m.state = AssetState.failedPermanently) →
    m.resolvedAssetLocation.isErrB = true)

/-- The location/state invariant over every managed asset in the registry. -/
def locationInvariantAll (s : ManagerState) : Prop :=
  ∀ p ∈ s.assets, assetLocationInvariant p.2

/-- Spec §8, property 3: every handler with `consumers_count == 0` is either
absent from `pending_load_requests` or marked `scheduled_for_cancelation`. -/
def pendingCancelationInvariant (s : ManagerState) : Prop :=
  ∀ p ∈ s.handlers, p.2.consumersCount = 0 →
    p.1 ∈ s.pendingLoadRequests → p.2.scheduledForCancelation = true

instance (m : ManagedAsset) : Decidable (assetLocationInvariant m) := by
  unfold assetLocationInvariant
  infer_instance

instance (s : ManagerState) : Decidable (locationInvariantAll s) := by
  unfold locationInvariantAll
  infer_instance

instance (s : ManagerState) : Decidable (pendingCancelationInvariant s) := by
  unfold pendingCancelationInvariant
  infer_instance

/-- A consumer the next-consumer scan's switch treats as updatable: not
notified and in state `Initial`/`Failed`/`Loaded`. -/
def isUnskipped (c : AssetConsumer) : Bool :=
  !c.notified &&
    (decide (c.state = AssetConsumerState.initial) ||
      decide (c.state = AssetConsumerState.failed) ||
      decide (c.state = AssetConsumerState.loaded))

/-- Following the claim's words, for comparison with the code: the scan
"skips every consumer with notified == true or state Loading or Removed";
the remaining consumers (cleared-observer ones included) are the
candidates. -/
def claimCandidates (managedAsset : ManagedAsset) : List AssetConsumer :=
  managedAsset.consumers.filter fun c =>
    !c.notified && decide (c.state ≠ AssetConsumerState.loading) &&
      decide (c.state ≠ AssetConsumerState.removed)

/-- A consumer at which the scan's accumulator first becomes non-empty:
either its observer is cleared, or the switch treats it as updatable. -/
def opensScan (c : AssetConsumer) : Bool :=
  decide (c.observer = none) || isUnskipped c

/-- Declarative description of `getNextConsumerToUpdate`: consumers before
the first one satisfying `opensScan` are passed over; that first consumer is
returned immediately with `has_more = true` when it is itself an updatable
cleared-observer consumer; otherwise the scan looks for a later updatable
consumer with a live observer — if one exists, it is returned when the
pending consumer's observer is cleared and the pending consumer is returned
otherwise, with `has_more = true`; when none exists the pending consumer is
returned with `has_more = false`. -/
def nextConsumerDesc : List AssetConsumer → Option AssetConsumer × Bool
  | [] => (none, false)
  | c :: rest =>
    if opensScan c then
      if decide (c.observer = none) && isUnskipped c then
        (some c, true)
      else
        match rest.find? (fun d => !decide (d.observer = none) && isUnskipped d) with
        | some d => (some (if c.observer = none then d else c), true)
        | none => (some c, false)
    else
      nextConsumerDesc rest

/-- The per-consumer effect of the reset loop in `setResolvedAssetLocation`:
result cleared, state back to `Initial`, `notified` cleared, request handler
dropped. -/
def resetConsumer (c : AssetConsumer) : AssetConsumer :=
  { c with
    loadedAsset := Result.empty
    state := AssetConsumerState.initial
    notified := false
    requestHandler := none }

/-- The managed asset produced by the non-no-op path of
`setResolvedAssetLocation` for a previous record `m`: consumers reset when
the asset was `Ready`, `resolve_id` back to 0, payload caches cleared, state
`Ready` with the new location stored as the success value. -/
def resolvedAsset (m : ManagedAsset) (loc : AssetLocation) : ManagedAsset :=
  { m with
    consumers :=
      if m.state = AssetState.ready then m.consumers.map resetConsumer
      else m.consumers
    resolveId := 0
    payloadCaches := []
    resolvedAssetLocation := Result.ok loc
    state := AssetState.ready }

/-- The externally visible steps of `endPauseUpdates`, in call order. -/
inductive PauseAction
  | drainInline
  | decrementPause
  | scheduleFlush
  | dispatchDrain
deriving DecidableEq

/-- `AssetsManager::endPauseUpdates` (lines 857–884), parametrised by the
main-thread drain `performUpdates` (whose own behaviour is the transaction
loop, not needed for the sequencing this function fixes). The result is
`none` when `SC_ASSERT(_pauseUpdatesCount > 0)` fails, otherwise the final
state together with the ordered trace of the externally visible steps. -/
def endPauseUpdates (drain : ManagerState → ManagerState) (isMainThread : Bool)
    (s : ManagerState) : Option (ManagerState × List PauseAction) :=
  if s.pauseUpdatesCount = 0 then
    none
  else
    let step1 :=
      if s.pauseUpdatesCount = 1 ∧ s.scheduledUpdates ≠ [] ∧ isMainThread = true then
        (drain s, [PauseAction.drainInline])
      else
        (s, ([] : List PauseAction))
    let s2 := { step1.1 with pauseUpdatesCount := step1.1.pauseUpdatesCount - 1 }
    let tr2 := step1.2 ++ [PauseAction.decrementPause]
    if s2.pauseUpdatesCount = 0 then
      let s3 := scheduleFlushLoadRequests s2
      let tr3 := tr2 ++ [PauseAction.scheduleFlush]
      if s3.scheduledUpdates ≠ [] then
        if isMainThread = false then
          some (s3, tr3 ++ [PauseAction.dispatchDrain])
        else
          some (drain s3, tr3 ++ [PauseAction.drainInline])
      else
        some (s3, tr3)
    else
      some (s2, tr2)

/-! Concrete states used to evaluate the theorems on explicit inputs. -/

/-- A manager state with nothing registered. -/
def emptyManagerState : ManagerState :=
  { assets := []
    handlers := []
    pendingLoadRequests := []
    pendingLoadRequestsScheduled := false
    scheduledUpdates := []
    pauseUpdatesCount := 0
    assetResolveIdSequence := 0
    removeUnusedLocalAssets := false
    hasListener := false
    bytesStoreUrls := none }

/-- A consumer with a live observer in state `Initial`. -/
def sampleConsumer : AssetConsumer :=
  { observer := some 1
    outputType := 0
    preferredWidth := 64
    preferredHeight := 64
    attachedData := 0
    state := .initial
    loadedAsset := .empty
    notified := false
    requestHandler := none }

/-- A cleared-observer consumer the scan's switch would also treat as
updatable. -/
def clearedConsumer : AssetConsumer := { sampleConsumer with observer := none }

/-- A cleared-observer consumer already notified. -/
def clearedNotifiedConsumer : AssetConsumer :=
  { sampleConsumer with observer := none, notified := true }

/-- A `Ready` asset with a single cleared-observer updatable consumer. -/
def c2AssetSingle : ManagedAsset :=
  { ManagedAsset.fresh with
    state := .ready
    resolvedAssetLocation := .ok ⟨"https://x/y.png", false⟩
    consumers := [clearedConsumer]
    hasObservable := true }

/-- A `Ready` asset whose consumers are: a notified cleared-observer one, an
updatable cleared-observer one, an updatable live one. -/
def c2AssetThree : ManagedAsset :=
  { c2AssetSingle with
    consumers := [clearedNotifiedConsumer, clearedConsumer, sampleConsumer] }

def c3Key : AssetKey := .bundled ⟨"game", true⟩ "a.png"

def c3Loc : AssetLocation := ⟨"file:///cache/a.png", false⟩

/-- A consumer already notified of a failure. -/
def c3Consumer : AssetConsumer :=
  { sampleConsumer with
    state := .failed
    loadedAsset := .err (Error.msg "E1")
    notified := true }

/-- A `FailedRetryable` asset holding `c3Consumer`. -/
def c3Asset : ManagedAsset :=
  { ManagedAsset.fresh with
    state := .failedRetryable
    resolveId := 2
    resolvedAssetLocation := .err (Error.msg "E1")
    consumers := [c3Consumer]
    hasObservable := true }

def c3State : ManagerState :=
  { emptyManagerState with assets := [(c3Key, c3Asset)] }

def c4Key : AssetKey := .bundled ⟨"game", true⟩ "b.png"

def c4Resources : RemoteModuleResources := ⟨[("b.png", "https://cdn/b.png")]⟩

/-- A resource loader that resolves nothing locally. -/
def c4Loader : ResourceLoaderFn := some fun _ _ => ""

def c4Asset : ManagedAsset :=
  { ManagedAsset.fresh with state := .resolvingLocation, resolveId := 5 }

def c4State : ManagerState :=
  { emptyManagerState with assets := [(c4Key, c4Asset)] }

def c5Key : AssetKey := .url "https://x/z.png"

def c5Handler : AssetLoaderRequestHandler :=
  { assetKey := c5Key
    requestedWidth := 64
    requestedHeight := 64
    attachedData := 0
    consumersCount := 2
    scheduledForLoad := true
    scheduledForCancelation := false
    lastLoadResult := .empty }

/-- A loading consumer attached to handler 1. -/
def c5ConsumerIn : AssetConsumer :=
  { sampleConsumer with state := .loading, requestHandler := some 1 }

/-- A loading consumer attached to a different handler. -/
def c5ConsumerOut : AssetConsumer :=
  { sampleConsumer with observer := some 2, state := .loading, requestHandler := some 4 }

def c5Asset : ManagedAsset :=
  { ManagedAsset.fresh with
    state := .ready
    resolvedAssetLocation := .ok ⟨"https://x/z.png", false⟩
    consumers := [c5ConsumerIn, c5ConsumerOut]
    hasObservable := true }

def c5State : ManagerState :=
  { emptyManagerState with
    assets := [(c5Key, c5Asset)]
    handlers := [(1, c5Handler)] }

def c6Key : AssetKey := .url "https://x/w.png"

/-- A handler with a single consumer attached, not yet cancel-scheduled. -/
def c6Handler : AssetLoaderRequestHandler :=
  { assetKey := c6Key
    requestedWidth := 64
    requestedHeight := 64
    attachedData := 0
    consumersCount := 1
    scheduledForLoad := true
    scheduledForCancelation := false
    lastLoadResult := .empty }

def c6Consumer : AssetConsumer :=
  { sampleConsumer with state := .loading, requestHandler := some 3 }

def c6State : ManagerState :=
  { emptyManagerState with
    handlers := [(3, c6Handler)]
    assets := [(c6Key,
      { ManagedAsset.fresh with
        state := .ready
        resolvedAssetLocation := .ok ⟨"https://x/w.png", false⟩
        consumers := [c6Consumer]
        hasObservable := true })] }

def c7Key : AssetKey := .url "https://x/q.png"

/-- A paused manager with one queued update. -/
def c7State : ManagerState :=
  { emptyManagerState with
    pauseUpdatesCount := 1
    scheduledUpdates := [c7Key] }

/-- A stand-in for `performUpdates`: empties the update queue. -/
def c7Drain : ManagerState → ManagerState :=
  fun t => { t with scheduledUpdates := [] }

def c8Key : AssetKey := .url "https://x/r.png"

/-- A resolved URL asset with no consumers and no live observable: the
removal condition of `removeManagedAssetIfNeeded` holds. -/
def c8Asset : ManagedAsset :=
  { ManagedAsset.fresh with
    state := .ready
    resolvedAssetLocation := .ok ⟨"https://x/r.png", false⟩ }

def c8State : ManagerState :=
  { emptyManagerState with
    assets := [(c8Key, c8Asset)]
    hasListener := true }

def c9Key : AssetKey := .url "https://x/y.png"

def c9Loc : AssetLocation := ⟨"https://x/y.png", false⟩

/-- A `Ready` asset whose resolved location is `c9Loc`. -/
def c9Asset : ManagedAsset :=
  { ManagedAsset.fresh with
    state := .ready
    resolveId := 3
    resolvedAssetLocation := .ok c9Loc
    hasObservable := true }

def c9State : ManagerState :=
  { emptyManagerState with
    assets := [(c9Key, c9Asset)]
    assetResolveIdSequence := 3 }

section AssocLemmas

variable {κ : Type} {α : Type} [DecidableEq κ]

theorem assocGet_nil (k : κ) : assocGet ([] : List (κ × α)) k = none := rfl

theorem assocGet_cons (p : κ × α) (l : List (κ × α)) (k : κ) :
    assocGet (p :: l) k = if p.1 = k then some p.2 else assocGet l k := by
  by_cases h : p.1 = k <;> simp [assocGet, List.find?, h]

theorem assocGet_map_self (l : List (κ × α)) (k : κ) (v : α)
    (h : (assocGet l k).isSome) :
    assocGet (l.map fun p => if p.1 = k then (k, v) else p) k = some v := by
  induction l with
  | nil => simp [assocGet_nil] at h
  | cons p rest ih =>
    by_cases hp : p.1 = k
    · simp [assocGet_cons, hp]
    · rw [assocGet_cons] at h
      simp only [hp, if_false] at h
      simp only [List.map_cons, if_neg hp]
      rw [assocGet_cons]
      simp only [hp, if_false]
      exact ih h

theorem assocGet_map_ne (l : List (κ × α)) (k k' : κ) (v : α)
    (hne : k' ≠ k) :
    assocGet (l.map fun p => if p.1 = k then (k, v) else p) k' =
      assocGet l k' := by
  induction l with
  | nil => rfl
  | cons p rest ih =>
    by_cases hp : p.1 = k
    · simp only [List.map_cons, if_pos hp]
      rw [assocGet_cons, assocGet_cons]
      have h1 : ¬ (k : κ) = k' := fun h => hne h.symm
      have h2 : ¬ p.1 = k' := fun h => hne (hp ▸ h).symm
      simp only [h1, if_false, h2, if_false]
      exact ih
    · simp only [List.map_cons, if_neg hp]
      rw [assocGet_cons, assocGet_cons]
      by_cases hpk : p.1 = k'
      · simp [hpk]
      · simp only [hpk, if_false]
        exact ih

theorem assocGet_append_single_self (l : List (κ × α)) (k : κ) (v : α)
    (h : assocGet l k = none) :
    assocGet (l ++ [(k, v)]) k = some v := by
  induction l with
  | nil => simp [assocGet, List.find?]
  | cons p rest ih =>
    rw [assocGet_cons] at h
    by_cases hp : p.1 = k
    · simp [hp] at h
    · simp only [hp, if_false] at h
      simp only [List.cons_append]
      rw [assocGet_cons]
      simp only [hp, if_false]
      exact ih h

theorem assocGet_append_single_ne (l : List (κ × α)) (k k' : κ) (v : α)
    (hne : k' ≠ k) :
    assocGet (l ++ [(k, v)]) k' = assocGet l k' := by
  induction l with
  | nil =>
    have hkk : ¬ (k = k') := fun h => hne h.symm
    simp [assocGet, List.find?, hkk]
  | cons p rest ih =>
    simp only [List.cons_append]
    rw [assocGet_cons, assocGet_cons]
    by_cases hpk : p.1 = k'
    · simp [hpk]
    · simp only [hpk, if_false]
      exact ih

theorem assocGet_assocSet_self (l : List (κ × α)) (k : κ) (v : α) :
    assocGet (assocSet l k v) k = some v := by
  unfold assocSet
  by_cases h : (assocGet l k).isSome
  · simp only [h, if_true]
    exact assocGet_map_self l k v h
  · simp only [h, if_false]
    exact assocGet_append_single_self l k v (Option.not_isSome_iff_eq_none.mp h)

theorem assocGet_assocSet_ne (l : List (κ × α)) (k k' : κ) (v : α)
    (hne : k' ≠ k) : assocGet (assocSet l k v) k' = assocGet l k' := by
  unfold assocSet
  by_cases h : (assocGet l k).isSome
  · simp only [h, if_true]
    exact assocGet_map_ne l k k' v hne
  · simp only [h, if_false]
    exact assocGet_append_single_ne l k k' v hne

/-- Every entry of `assocSet l k v` is either the new binding or an original
entry. -/
theorem mem_assocSet {l : List (κ × α)} {k : κ} {v : α} {p : κ × α}
    (hp : p ∈ assocSet l k v) : p = (k, v) ∨ p ∈ l := by
  unfold assocSet at hp
  by_cases h : (assocGet l k).isSome
  · simp only [h, if_true, List.mem_map] at hp
    obtain ⟨q, hq, hqe⟩ := hp
    by_cases hk : q.1 = k
    · left; rw [← hqe]; simp [hk]
    · right; rw [← hqe]; simp only [hk, if_false]; exact hq
  · simp only [h, if_false] at hp
    rcases List.mem_append.mp hp with h1 | h1
    · right; exact h1
    · left; exact List.mem_singleton.mp h1

theorem mem_assocErase {l : List (κ × α)} {k : κ} {p : κ × α}
    (hp : p ∈ assocErase l k) : p ∈ l :=
  List.mem_of_mem_filter hp

end AssocLemmas

section AssocLemmasMore

variable {κ : Type} {α : Type} [DecidableEq κ]

theorem assocGet_eq_none_keys {l : List (κ × α)} {k : κ}
    (h : assocGet l k = none) : ∀ p ∈ l, p.1 ≠ k := by
  intro p hp
  induction l with
  | nil => cases hp
  | cons q rest ih =>
    rw [assocGet_cons] at h
    by_cases hq : q.1 = k
    · simp [hq] at h
    · simp only [hq, if_false] at h
      rcases List.mem_cons.mp hp with rfl | hp'
      · exact hq
      · exact ih h hp'

/-- Every entry of `assocSet l k v` is the new binding or an original entry
whose key differs from `k`. -/
theorem mem_assocSet_strong {l : List (κ × α)} {k : κ} {v : α} {p : κ × α}
    (hp : p ∈ assocSet l k v) : p = (k, v) ∨ (p ∈ l ∧ p.1 ≠ k) := by
  unfold assocSet at hp
  by_cases h : (assocGet l k).isSome
  · simp only [h, if_true, List.mem_map] at hp
    obtain ⟨q, hq, hqe⟩ := hp
    by_cases hk : q.1 = k
    · left; rw [← hqe]; simp [hk]
    · right; rw [← hqe]; simp only [hk, if_false]; exact ⟨hq, hk⟩
  · simp only [h, if_false] at hp
    rcases List.mem_append.mp hp with h1 | h1
    · right
      exact ⟨h1, assocGet_eq_none_keys (Option.not_isSome_iff_eq_none.mp h) _ h1⟩
    · left; exact List.mem_singleton.mp h1

end AssocLemmasMore

/-! Frame lemmas: which parts of the state the auxiliary operations leave
untouched. -/

theorem scheduleFlushLoadRequests_assets (s : ManagerState) :
    (scheduleFlushLoadRequests s).assets = s.assets := by
  unfold scheduleFlushLoadRequests; split <;> rfl

theorem scheduleFlushLoadRequests_scheduledUpdates (s : ManagerState) :
    (scheduleFlushLoadRequests s).scheduledUpdates = s.scheduledUpdates := by
  unfold scheduleFlushLoadRequests; split <;> rfl

theorem scheduleFlushLoadRequests_handlers (s : ManagerState) :
    (scheduleFlushLoadRequests s).handlers = s.handlers := by
  unfold scheduleFlushLoadRequests; split <;> rfl

theorem scheduleFlushLoadRequests_pendingLoadRequests (s : ManagerState) :
    (scheduleFlushLoadRequests s).pendingLoadRequests = s.pendingLoadRequests := by
  unfold scheduleFlushLoadRequests; split <;> rfl

theorem releaseExistingRequest_assets (s : ManagerState) (e : Option Nat) :
    (releaseExistingRequest s e).assets = s.assets := by
  unfold releaseExistingRequest
  cases e with
  | none => rfl
  | some hid =>
    dsimp only
    cases assocGet s.handlers hid with
    | none => rfl
    | some h =>
      dsimp only
      split
      · rw [scheduleFlushLoadRequests_assets]
      · rfl

theorem releaseExistingRequest_scheduledUpdates (s : ManagerState) (e : Option Nat) :
    (releaseExistingRequest s e).scheduledUpdates = s.scheduledUpdates := by
  unfold releaseExistingRequest
  cases e with
  | none => rfl
  | some hid =>
    dsimp only
    cases assocGet s.handlers hid with
    | none => rfl
    | some h =>
      dsimp only
      split
      · rw [scheduleFlushLoadRequests_scheduledUpdates]
      · rfl

theorem retainIncomingRequest_assets (s : ManagerState) (r : Option Nat) :
    (retainIncomingRequest s r).assets = s.assets := by
  unfold retainIncomingRequest
  cases r with
  | none => rfl
  | some rid =>
    dsimp only
    cases assocGet s.handlers rid with
    | none => rfl
    | some h =>
      dsimp only
      split
      · rw [scheduleFlushLoadRequests_assets]
      · rfl

theorem retainIncomingRequest_scheduledUpdates (s : ManagerState) (r : Option Nat) :
    (retainIncomingRequest s r).scheduledUpdates = s.scheduledUpdates := by
  unfold retainIncomingRequest
  cases r with
  | none => rfl
  | some rid =>
    dsimp only
    cases assocGet s.handlers rid with
    | none => rfl
    | some h =>
      dsimp only
      split
      · rw [scheduleFlushLoadRequests_scheduledUpdates]
      · rfl

theorem updateConsumerRequestHandler_fst_assets (s : ManagerState)
    (c : AssetConsumer) (r : Option Nat) :
    (updateConsumerRequestHandler s c r).1.assets = s.assets := by
  unfold updateConsumerRequestHandler
  dsimp only
  rw [retainIncomingRequest_assets, releaseExistingRequest_assets]

theorem updateConsumerRequestHandler_fst_scheduledUpdates (s : ManagerState)
    (c : AssetConsumer) (r : Option Nat) :
    (updateConsumerRequestHandler s c r).1.scheduledUpdates = s.scheduledUpdates := by
  unfold updateConsumerRequestHandler
  dsimp only
  rw [retainIncomingRequest_scheduledUpdates, releaseExistingRequest_scheduledUpdates]

theorem updateConsumerRequestHandler_snd (s : ManagerState)
    (c : AssetConsumer) (r : Option Nat) :
    (updateConsumerRequestHandler s c r).2 = { c with requestHandler := r } := rfl

theorem resetConsumersGo_fst_assets (s : ManagerState) (cs : List AssetConsumer) :
    (resetConsumersGo s cs).1.assets = s.assets := by
  induction cs generalizing s with
  | nil => rfl
  | cons c rest ih =>
    unfold resetConsumersGo
    dsimp only
    rw [ih, updateConsumerRequestHandler_fst_assets]

theorem resetConsumersGo_fst_scheduledUpdates (s : ManagerState)
    (cs : List AssetConsumer) :
    (resetConsumersGo s cs).1.scheduledUpdates = s.scheduledUpdates := by
  induction cs generalizing s with
  | nil => rfl
  | cons c rest ih =>
    unfold resetConsumersGo
    dsimp only
    rw [ih, updateConsumerRequestHandler_fst_scheduledUpdates]

theorem resetConsumersGo_snd (s : ManagerState) (cs : List AssetConsumer) :
    (resetConsumersGo s cs).2 = cs.map resetConsumer := by
  induction cs generalizing s with
  | nil => rfl
  | cons c rest ih =>
    unfold resetConsumersGo
    dsimp only
    rw [ih]
    rfl

/-- C10: `getResolvedAssetLocation(key)` returns a location exactly when a
`ManagedAsset` exists for the key and its stored resolution holds a success
value; for an unknown key, an unresolved asset or a failed one it returns
`nullopt`; the read leaves the manager state unchanged (the operation is a
pure function of the state). -/
theorem getResolvedAssetLocation_characterisation (s : ManagerState)
    (assetKey : AssetKey) (loc : AssetLocation) :
    getResolvedAssetLocation s assetKey = some loc ↔
      ∃ m, assocGet s.assets assetKey = some m ∧
        m.resolvedAssetLocation = Result.ok loc := by
  unfold getResolvedAssetLocation
  cases h : assocGet s.assets assetKey with
  | none => simp
  | some m =>
    cases hm : m.resolvedAssetLocation with
    | ok v => simp [hm]
    | err e => simp [hm]
    | empty => simp [hm]

theorem setResolvedAssetLocation_noop (s : ManagerState)
    (assetKey : AssetKey) (loc : AssetLocation) (m : ManagedAsset)
    (hm : assocGet s.assets assetKey = some m)
    (hc : m.state = AssetState.ready ∧
      Result.holdsValue m.resolvedAssetLocation loc) :
    setResolvedAssetLocation s assetKey loc = s := by
  unfold setResolvedAssetLocation getOrCreateManagedAsset
  rw [hm]
  dsimp only
  rw [if_pos hc]

/-- C9: `setResolvedAssetLocation(k, L)` is a no-op — the entire manager
state is returned unchanged — when the managed asset for `k` is `Ready` with
resolved location `L`. -/
theorem setResolvedAssetLocation_idempotent (s : ManagerState)
    (assetKey : AssetKey) (loc : AssetLocation) (m : ManagedAsset)
    (hm : assocGet s.assets assetKey = some m)
    (hready : m.state = AssetState.ready)
    (hloc : m.resolvedAssetLocation = Result.ok loc) :
    setResolvedAssetLocation s assetKey loc = s :=
  setResolvedAssetLocation_noop s assetKey loc m hm
    ⟨hready, by rw [hloc]; simp [Result.holdsValue]⟩

/-- C9 witness: the idempotence theorem evaluated on `c9State`. -/
theorem setResolvedAssetLocation_idempotent_witness :
    setResolvedAssetLocation c9State c9Key c9Loc = c9State :=
  setResolvedAssetLocation_idempotent c9State c9Key c9Loc c9Asset rfl rfl rfl

theorem ite_assets (c : Prop) [Decidable c] (t : ManagerState) (k : AssetKey) :
    (if c then scheduleAssetUpdateOutside t k else t).assets = t.assets := by
  split <;> rfl

theorem ite_scheduledUpdates (c : Prop) [Decidable c] (t : ManagerState)
    (k : AssetKey) :
    (if c then scheduleAssetUpdateOutside t k else t).scheduledUpdates =
      t.scheduledUpdates ++ (if c then [k] else []) := by
  split
  · rfl
  · simp

theorem updateAssetLocation_invariant (m : ManagedAsset)
    (loc : Result AssetLocation) :
    assetLocationInvariant (updateAssetLocation m loc) := by
  cases loc <;>
    simp [updateAssetLocation, assetLocationInvariant, Result.toBool,
      Result.errorOf, Result.isOkB, Result.isErrB]

theorem invariantAll_assocSet {l : List (AssetKey × ManagedAsset)}
    {k : AssetKey} {v : ManagedAsset}
    (hl : ∀ p ∈ l, assetLocationInvariant p.2)
    (hv : assetLocationInvariant v) :
    ∀ p ∈ assocSet l k v, assetLocationInvariant p.2 := by
  intro p hp
  rcases mem_assocSet hp with h | h
  · rw [h]; exact hv
  · exact hl p h

theorem resolvedAsset_invariant (m : ManagedAsset) (loc : AssetLocation) :
    assetLocationInvariant (resolvedAsset m loc) := by
  simp [resolvedAsset, assetLocationInvariant, Result.isOkB]

theorem fresh_invariant : assetLocationInvariant ManagedAsset.fresh := by
  constructor
  · intro h; exact absurd h (by decide)
  · intro h; exact absurd h (by decide)

theorem setResolvedAssetLocation_assets_eq (s : ManagerState)
    (assetKey : AssetKey) (loc : AssetLocation) (m : ManagedAsset)
    (hm : assocGet s.assets assetKey = some m)
    (hc : ¬ (m.state = AssetState.ready ∧
      Result.holdsValue m.resolvedAssetLocation loc)) :
    (setResolvedAssetLocation s assetKey loc).assets =
      assocSet s.assets assetKey (resolvedAsset m loc) := by
  unfold setResolvedAssetLocation getOrCreateManagedAsset
  rw [hm]
  dsimp only
  rw [if_neg hc]
  by_cases hready : m.state = AssetState.ready
  · rw [if_pos hready, ite_assets]
    dsimp only
    rw [resetConsumersGo_fst_assets, resetConsumersGo_snd]
    unfold resolvedAsset
    rw [if_pos hready]
  · rw [if_neg hready, ite_assets]
    unfold resolvedAsset
    rw [if_neg hready]

theorem setResolvedAssetLocation_scheduled_eq (s : ManagerState)
    (assetKey : AssetKey) (loc : AssetLocation) (m : ManagedAsset)
    (hm : assocGet s.assets assetKey = some m)
    (hc : ¬ (m.state = AssetState.ready ∧
      Result.holdsValue m.resolvedAssetLocation loc)) :
    (setResolvedAssetLocation s assetKey loc).scheduledUpdates =
      s.scheduledUpdates ++ (if m.consumers = [] then [] else [assetKey]) := by
  unfold setResolvedAssetLocation getOrCreateManagedAsset
  rw [hm]
  dsimp only
  rw [if_neg hc]
  by_cases hready : m.state = AssetState.ready
  · rw [if_pos hready, ite_scheduledUpdates]
    dsimp only
    rw [resetConsumersGo_fst_scheduledUpdates, resetConsumersGo_snd]
    by_cases hmt : m.consumers = []
    · simp [hmt]
    · simp [hmt, List.map_eq_nil_iff]
  · rw [if_neg hready, ite_scheduledUpdates]
    by_cases hmt : m.consumers = []
    · simp [hmt]
    · simp [hmt]

theorem setResolvedAssetLocation_assets_eq_absent (s : ManagerState)
    (assetKey : AssetKey) (loc : AssetLocation)
    (hm : assocGet s.assets assetKey = none) :
    (setResolvedAssetLocation s assetKey loc).assets =
      assocSet (assocSet s.assets assetKey ManagedAsset.fresh) assetKey
        (resolvedAsset ManagedAsset.fresh loc) := by
  unfold setResolvedAssetLocation getOrCreateManagedAsset
  rw [hm]
  dsimp only
  rw [if_neg (fun h => absurd h.1 (by decide))]
  rw [if_neg (by decide : ¬ ManagedAsset.fresh.state = AssetState.ready)]
  rw [ite_assets]
  unfold resolvedAsset
  rw [if_neg (by decide : ¬ ManagedAsset.fresh.state = AssetState.ready)]

theorem onLoadingRemoteResourcesCompleted_invariant
    (resourceLoader : ResourceLoaderFn) (s : ManagerState) (assetKey : AssetKey)
    (result : Result RemoteModuleResources) (resolveId : Nat)
    (hs : locationInvariantAll s) :
    locationInvariantAll
      (onLoadingRemoteResourcesCompleted resourceLoader s assetKey result resolveId) := by
  unfold onLoadingRemoteResourcesCompleted
  cases hg : assocGet s.assets assetKey with
  | none => exact hs
  | some m =>
    dsimp only
    by_cases hid : m.resolveId ≠ resolveId
    · rw [if_pos hid]; exact hs
    · rw [if_neg hid]
      intro p hp
      have hp' : p ∈ assocSet s.assets assetKey
          (if result.toBool then
            updateAssetLocation m (resolveRemoteAssetLocation resourceLoader assetKey result)
          else
            { m with
              state := AssetState.failedRetryable
              resolvedAssetLocation := Result.err result.errorOf }) := hp
      refine invariantAll_assocSet hs ?_ p hp'
      split
      · exact updateAssetLocation_invariant _ _
      · constructor
        · intro h; exact absurd h (by simp)
        · intro _; rfl

theorem setResolvedAssetLocation_invariant (s : ManagerState)
    (assetKey : AssetKey) (loc : AssetLocation)
    (hs : locationInvariantAll s) :
    locationInvariantAll (setResolvedAssetLocation s assetKey loc) := by
  cases hg : assocGet s.assets assetKey with
  | none =>
    intro p hp
    rw [setResolvedAssetLocation_assets_eq_absent s assetKey loc hg] at hp
    exact invariantAll_assocSet (invariantAll_assocSet hs fresh_invariant)
      (resolvedAsset_invariant _ _) p hp
  | some m =>
    by_cases hc : m.state = AssetState.ready ∧
        Result.holdsValue m.resolvedAssetLocation loc
    · have : setResolvedAssetLocation s assetKey loc = s :=
        setResolvedAssetLocation_noop s assetKey loc m hg hc
      rw [this]; exact hs
    · intro p hp
      rw [setResolvedAssetLocation_assets_eq s assetKey loc m hg hc] at hp
      exact invariantAll_assocSet hs (resolvedAsset_invariant _ _) p hp

/-- C1: for every operation that sets state or location —
`updateAssetLocation`, `onLoadingRemoteResourcesCompleted`,
`setResolvedAssetLocation` — the invariant "state `Ready` implies
`resolved_location` holds a success value, and the two failed states imply
it holds an error" holds afterwards on every managed asset of the registry
(unconditionally for the asset `updateAssetLocation` writes, and preserved
from the pre-state for the two manager-level operations). -/
theorem location_state_invariant :
    (∀ m loc, assetLocationInvariant (updateAssetLocation m loc)) ∧
    (∀ resourceLoader s assetKey result resolveId, locationInvariantAll s →
      locationInvariantAll
        (onLoadingRemoteResourcesCompleted resourceLoader s assetKey result resolveId)) ∧
    (∀ s assetKey loc, locationInvariantAll s →
      locationInvariantAll (setResolvedAssetLocation s assetKey loc)) :=
  ⟨updateAssetLocation_invariant,
    onLoadingRemoteResourcesCompleted_invariant,
    setResolvedAssetLocation_invariant⟩

/-- C1 witness: the invariant theorem evaluated on concrete states — a
failed remote completion on `c4State` and a forced location on `c9State`. -/
theorem location_state_invariant_witness :
    locationInvariantAll
      (onLoadingRemoteResourcesCompleted c4Loader c4State c4Key
        (Result.err (Error.msg "offline")) 5) ∧
    locationInvariantAll (setResolvedAssetLocation c9State c9Key c9Loc) :=
  ⟨location_state_invariant.2.1 c4Loader c4State c4Key
      (Result.err (Error.msg "offline")) 5 (by decide),
    location_state_invariant.2.2 c9State c9Key c9Loc (by decide)⟩

theorem findq_cons {α : Type} (p : α → Bool) (c : α) (l : List α) :
    (c :: l).find? p = if p c then some c else l.find? p := by
  by_cases h : p c = true <;> simp [List.find?, h]

theorem getNextConsumerGo_some (a : AssetConsumer) (l : List AssetConsumer) :
    getNextConsumerGo (some a) l =
      match l.find? (fun d => !decide (d.observer = none) && isUnskipped d) with
      | some d => (some (if a.observer = none then d else a), true)
      | none => (some a, false) := by
  induction l with
  | nil => rfl
  | cons c rest ih =>
    rw [findq_cons]
    by_cases hobs : c.observer = none
    · have hpred : ¬ ((!decide (c.observer = none) && isUnskipped c) = true) := by
        simp [hobs]
      unfold getNextConsumerGo
      rw [if_pos ⟨hobs, rfl⟩, ih, if_neg hpred]
    · unfold getNextConsumerGo
      rw [if_neg (fun h => hobs h.1)]
      dsimp only
      rw [if_neg hobs]
      by_cases hn : c.notified
      · have hpred : ¬ ((!decide (c.observer = none) && isUnskipped c) = true) := by
          simp [isUnskipped, hn]
        rw [if_pos hn, ih, if_neg hpred]
      · rw [if_neg hn]
        cases hs : c.state with
        | initial =>
          have hpred : (!decide (c.observer = none) && isUnskipped c) = true := by
            simp [isUnskipped, hn, hobs, hs]
          rw [if_pos hpred]
        | failed =>
          have hpred : (!decide (c.observer = none) && isUnskipped c) = true := by
            simp [isUnskipped, hn, hobs, hs]
          rw [if_pos hpred]
        | loaded =>
          have hpred : (!decide (c.observer = none) && isUnskipped c) = true := by
            simp [isUnskipped, hn, hobs, hs]
          rw [if_pos hpred]
        | loading =>
          have hpred : ¬ ((!decide (c.observer = none) && isUnskipped c) = true) := by
            simp [isUnskipped, hs]
          dsimp only
          rw [ih, if_neg hpred]
        | removed =>
          have hpred : ¬ ((!decide (c.observer = none) && isUnskipped c) = true) := by
            simp [isUnskipped, hs]
          dsimp only
          rw [ih, if_neg hpred]

theorem getNextConsumerGo_none_desc (l : List AssetConsumer) :
    getNextConsumerGo none l = nextConsumerDesc l := by
  induction l with
  | nil => rfl
  | cons c rest ih =>
    unfold getNextConsumerGo nextConsumerDesc
    rw [if_neg (fun h => Bool.false_ne_true h.2)]
    dsimp only
    by_cases hobs : c.observer = none
    · rw [if_pos hobs]
      have hopen : opensScan c = true := by simp [opensScan, hobs]
      rw [if_pos hopen]
      by_cases hn : c.notified
      · have hcond : ¬ ((decide (c.observer = none) && isUnskipped c) = true) := by
          simp [isUnskipped, hn]
        rw [if_pos hn, if_neg hcond, getNextConsumerGo_some]
      · rw [if_neg hn]
        cases hs : c.state with
        | initial =>
          have hcond : (decide (c.observer = none) && isUnskipped c) = true := by
            simp [isUnskipped, hobs, hn, hs]
          dsimp only
          rw [if_pos hcond, if_pos hobs]
        | failed =>
          have hcond : (decide (c.observer = none) && isUnskipped c) = true := by
            simp [isUnskipped, hobs, hn, hs]
          dsimp only
          rw [if_pos hcond, if_pos hobs]
        | loaded =>
          have hcond : (decide (c.observer = none) && isUnskipped c) = true := by
            simp [isUnskipped, hobs, hn, hs]
          dsimp only
          rw [if_pos hcond, if_pos hobs]
        | loading =>
          have hcond : ¬ ((decide (c.observer = none) && isUnskipped c) = true) := by
            simp [isUnskipped, hs]
          dsimp only
          rw [if_neg hcond, getNextConsumerGo_some]
        | removed =>
          have hcond : ¬ ((decide (c.observer = none) && isUnskipped c) = true) := by
            simp [isUnskipped, hs]
          dsimp only
          rw [if_neg hcond, getNextConsumerGo_some]
    · rw [if_neg hobs]
      by_cases hn : c.notified
      · have hopen : ¬ (opensScan c = true) := by
          simp [opensScan, isUnskipped, hobs, hn]
        rw [if_pos hn, if_neg hopen]
        exact ih
      · rw [if_neg hn]
        cases hs : c.state with
        | initial =>
          have hopen : opensScan c = true := by
            simp [opensScan, isUnskipped, hobs, hn, hs]
          have hcond : ¬ ((decide (c.observer = none) && isUnskipped c) = true) := by
            simp [hobs]
          dsimp only
          rw [if_pos hopen, if_neg hcond, getNextConsumerGo_some]
        | failed =>
          have hopen : opensScan c = true := by
            simp [opensScan, isUnskipped, hobs, hn, hs]
          have hcond : ¬ ((decide (c.observer = none) && isUnskipped c) = true) := by
            simp [hobs]
          dsimp only
          rw [if_pos hopen, if_neg hcond, getNextConsumerGo_some]
        | loaded =>
          have hopen : opensScan c = true := by
            simp [opensScan, isUnskipped, hobs, hn, hs]
          have hcond : ¬ ((decide (c.observer = none) && isUnskipped c) = true) := by
            simp [hobs]
          dsimp only
          rw [if_pos hopen, if_neg hcond, getNextConsumerGo_some]
        | loading =>
          have hopen : ¬ (opensScan c = true) := by
            simp [opensScan, isUnskipped, hobs, hs]
          dsimp only
          rw [if_neg hopen]
          exact ih
        | removed =>
          have hopen : ¬ (opensScan c = true) := by
            simp [opensScan, isUnskipped, hobs, hs]
          dsimp only
          rw [if_neg hopen]
          exact ih

/-- C2 counterexample. First input: a single non-notified `Initial` consumer
with a cleared observer — the only candidate under the claim's reading, yet
the code reports `has_more = true`, refuting "has_more = true exactly when
more than one candidate exists". Second input: consumers (cleared+notified,
cleared+updatable, live+updatable) — under the claim the cleared updatable
consumer is the first candidate and takes priority, yet the code returns the
live consumer found after it. -/
theorem getNextConsumerToUpdate_counterexample :
    ((getNextConsumerToUpdate c2AssetSingle).2 = true ∧
      (claimCandidates c2AssetSingle).length = 1) ∧
    ((getNextConsumerToUpdate c2AssetThree).1 = some sampleConsumer ∧
      (claimCandidates c2AssetThree).head? = some clearedConsumer ∧
      sampleConsumer ≠ clearedConsumer) := by
  decide

/-- C2 (amended): `getNextConsumerToUpdate` scans the consumers in insertion
order keeping one pending candidate. The first consumer with a cleared
observer or unskipped (not notified, state Initial/Failed/Loaded) becomes
the pending candidate; cleared-observer consumers met afterwards are passed
over; the first unskipped consumer met with the pending candidate in place
(itself, if it is an unskipped cleared-observer one) causes an immediate
return with `has_more = true`, yielding the new consumer when the pending
candidate's observer is cleared and the pending candidate otherwise; if the
scan completes, the pending candidate (possibly none) is returned with
`has_more = false`. -/
theorem getNextConsumerToUpdate_characterisation (managedAsset : ManagedAsset) :
    getNextConsumerToUpdate managedAsset = nextConsumerDesc managedAsset.consumers :=
  getNextConsumerGo_none_desc managedAsset.consumers

/-- C3 counterexample: `c3State` holds a `FailedRetryable` (hence not
`Ready`) asset with one consumer already notified of a failure, so the call
is not the no-op case; after `setResolvedAssetLocation` the asset is `Ready`
with the new location but its consumer list is untouched — the consumer
keeps `notified = true`, state `Failed` and its old result, refuting "for
each existing consumer its result is reset to empty, its state set to
Initial, its notified flag cleared". -/
theorem setResolvedAssetLocation_counterexample :
    c3Asset.state ≠ AssetState.ready ∧
    assocGet (setResolvedAssetLocation c3State c3Key c3Loc).assets c3Key =
      some { c3Asset with
        resolveId := 0
        resolvedAssetLocation := Result.ok c3Loc
        state := AssetState.ready } ∧
    c3Consumer.notified = true ∧
    c3Consumer.state ≠ AssetConsumerState.initial := by
  decide

/-- C3 (amended): when the call is not the no-op case, the consumers are
reset (result emptied, state `Initial`, `notified` cleared, request handler
dropped) only if the asset was previously in state `Ready`; in all cases
`resolve_id` is reset to 0, the payload caches are cleared, the state
becomes `Ready` with the new location, other keys are untouched, and an
update is scheduled iff at least one consumer exists. -/
theorem setResolvedAssetLocation_characterisation (s : ManagerState)
    (assetKey : AssetKey) (loc : AssetLocation) (m : ManagedAsset)
    (hm : assocGet s.assets assetKey = some m)
    (hc : ¬ (m.state = AssetState.ready ∧
      Result.holdsValue m.resolvedAssetLocation loc)) :
    assocGet (setResolvedAssetLocation s assetKey loc).assets assetKey =
      some (resolvedAsset m loc) ∧
    (∀ k', k' ≠ assetKey →
      assocGet (setResolvedAssetLocation s assetKey loc).assets k' =
        assocGet s.assets k') ∧
    (setResolvedAssetLocation s assetKey loc).scheduledUpdates =
      s.scheduledUpdates ++ (if m.consumers = [] then [] else [assetKey]) := by
  refine ⟨?_, ?_, setResolvedAssetLocation_scheduled_eq s assetKey loc m hm hc⟩
  · rw [setResolvedAssetLocation_assets_eq s assetKey loc m hm hc,
      assocGet_assocSet_self]
  · intro k' hk'
    rw [setResolvedAssetLocation_assets_eq s assetKey loc m hm hc,
      assocGet_assocSet_ne _ _ _ _ hk']

/-- C3 witness: the amended characterisation evaluated on `c3State`. -/
theorem setResolvedAssetLocation_characterisation_witness :
    assocGet (setResolvedAssetLocation c3State c3Key c3Loc).assets c3Key =
      some (resolvedAsset c3Asset c3Loc) ∧
    (setResolvedAssetLocation c3State c3Key c3Loc).scheduledUpdates =
      c3State.scheduledUpdates ++
        (if c3Asset.consumers = [] then [] else [c3Key]) :=
  ⟨(setResolvedAssetLocation_characterisation c3State c3Key c3Loc c3Asset rfl
      (by decide)).1,
    (setResolvedAssetLocation_characterisation c3State c3Key c3Loc c3Asset rfl
      (by decide)).2.2⟩

/-- C4: completion handling. A completion whose managed asset is gone or
whose `resolve_id` no longer matches is dropped with no state change (both
for the remote and the local path). Otherwise: a failed remote
`load_resources` makes the asset `FailedRetryable` holding the fetch error;
a resolution outcome (remote or local) is applied via `updateAssetLocation`,
which maps a success to `Ready` holding the location and a resolution
failure to `FailedPermanently` holding the error. -/
theorem resolution_completion_spec (resourceLoader : ResourceLoaderFn)
    (s : ManagerState) (assetKey : AssetKey)
    (result : Result RemoteModuleResources) (resolveId : Nat) :
    (assocGet s.assets assetKey = none →
      onLoadingRemoteResourcesCompleted resourceLoader s assetKey result resolveId = s ∧
      resolveLocalAssetLocationAndUpdate resourceLoader s assetKey resolveId = s) ∧
    (∀ m, assocGet s.assets assetKey = some m → m.resolveId ≠ resolveId →
      onLoadingRemoteResourcesCompleted resourceLoader s assetKey result resolveId = s ∧
      resolveLocalAssetLocationAndUpdate resourceLoader s assetKey resolveId = s) ∧
    (∀ m e, assocGet s.assets assetKey = some m → m.resolveId = resolveId →
      result = Result.err e →
      assocGet (onLoadingRemoteResourcesCompleted resourceLoader s assetKey
          result resolveId).assets assetKey =
        some { m with
          state := AssetState.failedRetryable
          resolvedAssetLocation := Result.err e }) ∧
    (∀ m res, assocGet s.assets assetKey = some m → m.resolveId = resolveId →
      result = Result.ok res →
      assocGet (onLoadingRemoteResourcesCompleted resourceLoader s assetKey
          result resolveId).assets assetKey =
        some (updateAssetLocation m
          (resolveRemoteAssetLocation resourceLoader assetKey result))) ∧
    (∀ m, assocGet s.assets assetKey = some m → m.resolveId = resolveId →
      assocGet (resolveLocalAssetLocationAndUpdate resourceLoader s assetKey
          resolveId).assets assetKey =
        some (updateAssetLocation m
          (resolveLocalAssetLocation resourceLoader assetKey))) ∧
    (∀ m loc', updateAssetLocation m (Result.ok loc') =
      { m with
        state := AssetState.ready
        resolvedAssetLocation := Result.ok loc' }) ∧
    (∀ m e, updateAssetLocation m (Result.err e) =
      { m with
        state := AssetState.failedPermanently
        resolvedAssetLocation := Result.err e }) := by
  refine ⟨?_, ?_, ?_, ?_, ?_, ?_, ?_⟩
  · intro h
    constructor
    · unfold onLoadingRemoteResourcesCompleted
      rw [h]
    · unfold resolveLocalAssetLocationAndUpdate
      rw [h]
  · intro m hm hid
    constructor
    · unfold onLoadingRemoteResourcesCompleted
      rw [hm]
      dsimp only
      rw [if_pos hid]
    · unfold resolveLocalAssetLocationAndUpdate
      rw [hm]
      dsimp only
      rw [if_pos hid]
  · intro m e hm hid hres
    unfold onLoadingRemoteResourcesCompleted
    rw [hm]
    dsimp only
    rw [if_neg (fun h => h hid), hres]
    dsimp only [Result.toBool]
    unfold scheduleAssetUpdateOutside
    dsimp only
    rw [assocGet_assocSet_self]
    rfl
  · intro m res hm hid hres
    unfold onLoadingRemoteResourcesCompleted
    rw [hm]
    dsimp only
    rw [if_neg (fun h => h hid), hres]
    dsimp only [Result.toBool]
    unfold scheduleAssetUpdateOutside
    dsimp only
    rw [← hres, assocGet_assocSet_self]
    rfl
  · intro m hm hid
    unfold resolveLocalAssetLocationAndUpdate
    rw [hm]
    dsimp only
    rw [if_neg (fun h => h hid)]
    unfold scheduleAssetUpdateOutside
    dsimp only
    rw [assocGet_assocSet_self]
  · intro m loc'
    simp [updateAssetLocation, Result.toBool]
  · intro m e
    simp [updateAssetLocation, Result.toBool, Result.errorOf]

/-- C4 witness: the completion theorem evaluated on `c4State` — a stale
local completion (`resolve_id` 7 against 5), a failed remote fetch, and a
successful remote fetch. -/
theorem resolution_completion_spec_witness :
    (resolveLocalAssetLocationAndUpdate c4Loader c4State c4Key 7 = c4State) ∧
    (assocGet (onLoadingRemoteResourcesCompleted c4Loader c4State c4Key
        (Result.err (Error.msg "offline")) 5).assets c4Key =
      some { c4Asset with
        state := AssetState.failedRetryable
        resolvedAssetLocation := Result.err (Error.msg "offline") }) ∧
    (assocGet (onLoadingRemoteResourcesCompleted c4Loader c4State c4Key
        (Result.ok c4Resources) 5).assets c4Key =
      some (updateAssetLocation c4Asset
        (resolveRemoteAssetLocation c4Loader c4Key (Result.ok c4Resources)))) :=
  ⟨((resolution_completion_spec c4Loader c4State c4Key
      (Result.err (Error.msg "offline")) 7).2.1 c4Asset rfl (by decide)).2,
    (resolution_completion_spec c4Loader c4State c4Key
      (Result.err (Error.msg "offline")) 5).2.2.1 c4Asset (Error.msg "offline")
      rfl rfl rfl,
    (resolution_completion_spec c4Loader c4State c4Key
      (Result.ok c4Resources) 5).2.2.2.1 c4Asset c4Resources rfl rfl rfl⟩

/-- C5: `onLoad` drops the completion with no state change when the managed
asset for the request's key is absent or the request is cancel-scheduled;
otherwise it caches the result as the request's `last_load_result`, applies
`onConsumerLoad` to exactly those consumers whose current request handler is
this request (all others are unchanged), and re-enqueues the key. -/
theorem onLoad_spec (s : ManagerState) (requestId : Nat)
    (result : Result (Option LoadedAsset))
    (request : AssetLoaderRequestHandler)
    (hreq : assocGet s.handlers requestId = some request) :
    (assocGet s.assets request.assetKey = none →
      onLoad s requestId result = s) ∧
    (request.scheduledForCancelation = true →
      onLoad s requestId result = s) ∧
    (∀ m, assocGet s.assets request.assetKey = some m →
      request.scheduledForCancelation = false →
      assocGet (onLoad s requestId result).handlers requestId =
        some { request with lastLoadResult := result } ∧
      assocGet (onLoad s requestId result).assets request.assetKey =
        some { m with consumers := m.consumers.map fun c =>
          if c.requestHandler = some requestId then onConsumerLoad c result
          else c } ∧
      (onLoad s requestId result).scheduledUpdates =
        s.scheduledUpdates ++ [request.assetKey]) := by
  refine ⟨?_, ?_, ?_⟩
  · intro h
    unfold onLoad
    rw [hreq]
    dsimp only
    rw [h]
  · intro hcanc
    unfold onLoad
    rw [hreq]
    dsimp only
    cases hma : assocGet s.assets request.assetKey with
    | none => rfl
    | some m =>
      dsimp only
      rw [if_pos hcanc]
  · intro m hm hcanc
    unfold onLoad
    rw [hreq]
    dsimp only
    rw [hm]
    dsimp only
    rw [if_neg (fun h => Bool.false_ne_true (hcanc ▸ h))]
    unfold scheduleAssetUpdateOutside
    dsimp only
    refine ⟨?_, ?_, rfl⟩
    · exact assocGet_assocSet_self _ _ _
    · exact assocGet_assocSet_self _ _ _

/-- C5 witness: `onLoad` on `c5State` for handler 1: the result is cached,
`c5ConsumerIn` (attached to handler 1) receives it, `c5ConsumerOut` is
unchanged, and the key is re-enqueued. -/
theorem onLoad_spec_witness :
    assocGet (onLoad c5State 1 (Result.ok (some (LoadedAsset.mk 9)))).handlers 1 =
      some { c5Handler with
        lastLoadResult := Result.ok (some (LoadedAsset.mk 9)) } ∧
    assocGet (onLoad c5State 1 (Result.ok (some (LoadedAsset.mk 9)))).assets c5Key =
      some { c5Asset with consumers := c5Asset.consumers.map fun c =>
        if c.requestHandler = some 1
        then onConsumerLoad c (Result.ok (some (LoadedAsset.mk 9)))
        else c } ∧
    (onLoad c5State 1 (Result.ok (some (LoadedAsset.mk 9)))).scheduledUpdates =
      c5State.scheduledUpdates ++ [c5Key] :=
  (onLoad_spec c5State 1 (Result.ok (some (LoadedAsset.mk 9))) c5Handler rfl).2.2
    c5Asset rfl rfl

theorem pendingInvariant_set_append {s : ManagerState} {hid : Nat}
    {h' : AssetLoaderRequestHandler}
    (hinv : pendingCancelationInvariant s)
    (hok : h'.consumersCount = 0 → h'.scheduledForCancelation = true) :
    pendingCancelationInvariant
      { s with
        handlers := assocSet s.handlers hid h'
        pendingLoadRequests := s.pendingLoadRequests ++ [hid] } := by
  intro p hp hc hm
  rcases mem_assocSet_strong hp with rfl | ⟨hpl, hpne⟩
  · exact hok hc
  · have hmem : p.1 ∈ s.pendingLoadRequests := by
      rcases List.mem_append.mp hm with h1 | h1
      · exact h1
      · exact absurd (List.mem_singleton.mp h1) hpne
    exact hinv p hpl hc hmem

theorem pendingInvariant_set_keep {s : ManagerState} {hid : Nat}
    {h' : AssetLoaderRequestHandler}
    (hinv : pendingCancelationInvariant s)
    (hok : h'.consumersCount = 0 → h'.scheduledForCancelation = true) :
    pendingCancelationInvariant { s with handlers := assocSet s.handlers hid h' } := by
  intro p hp hc hm
  rcases mem_assocSet_strong hp with rfl | ⟨hpl, hpne⟩
  · exact hok hc
  · exact hinv p hpl hc hm

theorem pendingInvariant_flush {s : ManagerState}
    (hinv : pendingCancelationInvariant s) :
    pendingCancelationInvariant (scheduleFlushLoadRequests s) := by
  unfold scheduleFlushLoadRequests
  split
  · intro p hp hc hm
    exact hinv p hp hc hm
  · exact hinv

theorem releaseExistingRequest_invariant (s : ManagerState) (e : Option Nat)
    (hinv : pendingCancelationInvariant s) :
    pendingCancelationInvariant (releaseExistingRequest s e) := by
  unfold releaseExistingRequest
  cases e with
  | none => exact hinv
  | some hid =>
    dsimp only
    cases hh : assocGet s.handlers hid with
    | none => exact hinv
    | some h =>
      dsimp only
      split
      · exact pendingInvariant_flush (pendingInvariant_set_append hinv (fun _ => rfl))
      · rename_i hcond
        refine pendingInvariant_set_keep hinv ?_
        intro hz
        by_contra hnc
        exact hcond ⟨hz, hnc⟩

theorem retainIncomingRequest_invariant (s : ManagerState) (r : Option Nat)
    (hinv : pendingCancelationInvariant s) :
    pendingCancelationInvariant (retainIncomingRequest s r) := by
  unfold retainIncomingRequest
  cases r with
  | none => exact hinv
  | some rid =>
    dsimp only
    cases hh : assocGet s.handlers rid with
    | none => exact hinv
    | some h =>
      dsimp only
      split
      · exact pendingInvariant_flush
          (pendingInvariant_set_append hinv
            (fun hz => absurd hz (Nat.succ_ne_zero _)))
      · exact pendingInvariant_set_keep hinv
          (fun hz => absurd hz (Nat.succ_ne_zero _))

theorem releaseExistingRequest_drops_to_zero (s : ManagerState) (hid : Nat)
    (h : AssetLoaderRequestHandler) (hh : assocGet s.handlers hid = some h)
    (hcount : h.consumersCount = 1) (hcanc : h.scheduledForCancelation = false) :
    assocGet (releaseExistingRequest s (some hid)).handlers hid =
      some { h with consumersCount := 0, scheduledForCancelation := true } ∧
    hid ∈ (releaseExistingRequest s (some hid)).pendingLoadRequests := by
  unfold releaseExistingRequest
  dsimp only
  rw [hh]
  dsimp only
  rw [if_pos ⟨by simp [hcount], by simp [hcanc]⟩]
  constructor
  · rw [scheduleFlushLoadRequests_handlers]
    dsimp only
    rw [assocGet_assocSet_self, hcount]
  · rw [scheduleFlushLoadRequests_pendingLoadRequests]
    dsimp only
    exact List.mem_append.mpr (Or.inr (List.mem_singleton.mpr rfl))

theorem retainIncomingRequest_preserves_other (s : ManagerState)
    (r : Option Nat) (hid : Nat) (hne : r ≠ some hid) :
    assocGet (retainIncomingRequest s r).handlers hid =
      assocGet s.handlers hid ∧
    (hid ∈ s.pendingLoadRequests →
      hid ∈ (retainIncomingRequest s r).pendingLoadRequests) := by
  unfold retainIncomingRequest
  cases r with
  | none => exact ⟨rfl, id⟩
  | some rid =>
    dsimp only
    cases hh : assocGet s.handlers rid with
    | none => exact ⟨rfl, id⟩
    | some h =>
      dsimp only
      have hidne : hid ≠ rid := fun he => hne (by rw [he])
      split
      · constructor
        · rw [scheduleFlushLoadRequests_handlers]
          dsimp only
          exact assocGet_assocSet_ne _ _ _ _ hidne
        · intro hmem
          rw [scheduleFlushLoadRequests_pendingLoadRequests]
          dsimp only
          exact List.mem_append.mpr (Or.inl hmem)
      · exact ⟨assocGet_assocSet_ne _ _ _ _ hidne, id⟩

/-- C6: `updateConsumerRequestHandler` preserves the invariant "every
handler with `consumers_count == 0` in `pending_load_requests` is marked
`scheduled_for_cancelation`"; and when it drops an outgoing handler's count
from 1 to 0 and the handler is not already cancel-scheduled (with the
incoming handler, if any, a different one), the handler is marked and is in
`pending_load_requests` afterwards. -/
theorem pending_cancelation_spec (s : ManagerState) (c : AssetConsumer)
    (r : Option Nat) :
    (pendingCancelationInvariant s →
      pendingCancelationInvariant (updateConsumerRequestHandler s c r).1) ∧
    (∀ hid h, c.requestHandler = some hid → r ≠ some hid →
      assocGet s.handlers hid = some h →
      h.consumersCount = 1 → h.scheduledForCancelation = false →
      assocGet (updateConsumerRequestHandler s c r).1.handlers hid =
        some { h with consumersCount := 0, scheduledForCancelation := true } ∧
      hid ∈ (updateConsumerRequestHandler s c r).1.pendingLoadRequests) := by
  constructor
  · intro hinv
    unfold updateConsumerRequestHandler
    dsimp only
    exact retainIncomingRequest_invariant _ _
      (releaseExistingRequest_invariant _ _ hinv)
  · intro hid h hrh hne hh hcount hcanc
    unfold updateConsumerRequestHandler
    dsimp only
    rw [hrh]
    have hdrop := releaseExistingRequest_drops_to_zero s hid h hh hcount hcanc
    have hpres := retainIncomingRequest_preserves_other
      (releaseExistingRequest s (some hid)) r hid hne
    exact ⟨hpres.1.trans hdrop.1, hpres.2 hdrop.2⟩

/-- C6 witness: dropping `c6Consumer`'s handler (refcount 1 → 0) on
`c6State` marks handler 3 for cancelation and appends it to the pending
queue, and the invariant holds afterwards. -/
theorem pending_cancelation_spec_witness :
    pendingCancelationInvariant (updateConsumerRequestHandler c6State c6Consumer none).1 ∧
    (assocGet (updateConsumerRequestHandler c6State c6Consumer none).1.handlers 3 =
      some { c6Handler with consumersCount := 0, scheduledForCancelation := true } ∧
      3 ∈ (updateConsumerRequestHandler c6State c6Consumer none).1.pendingLoadRequests) :=
  ⟨(pending_cancelation_spec c6State c6Consumer none).1 (by decide),
    (pending_cancelation_spec c6State c6Consumer none).2 3 c6Handler rfl
      (by decide) rfl rfl rfl⟩

/-- C7: `endPauseUpdates` trips its assertion when `pause_count` is 0. When
the call takes `pause_count` from 1 to 0 with updates queued: on the main
thread it drains inline before the decrement and schedules load-request
flushes after it (the trace starts `drainInline, decrementPause,
scheduleFlush`); off the main thread it performs no inline drain and the
trace is `decrementPause, scheduleFlush, dispatchDrain` — a drain dispatched
to the main thread instead. -/
theorem endPauseUpdates_spec (drain : ManagerState → ManagerState)
    (s : ManagerState) :
    (s.pauseUpdatesCount = 0 →
      ∀ isMainThread, endPauseUpdates drain isMainThread s = none) ∧
    (s.pauseUpdatesCount = 1 → s.scheduledUpdates ≠ [] →
      (drain s).pauseUpdatesCount = 1 →
      ∃ s' rest, endPauseUpdates drain true s =
        some (s', PauseAction.drainInline :: PauseAction.decrementPause ::
          PauseAction.scheduleFlush :: rest)) ∧
    (s.pauseUpdatesCount = 1 → s.scheduledUpdates ≠ [] →
      endPauseUpdates drain false s =
        some (scheduleFlushLoadRequests { s with pauseUpdatesCount := 0 },
          [PauseAction.decrementPause, PauseAction.scheduleFlush,
            PauseAction.dispatchDrain])) := by
  refine ⟨?_, ?_, ?_⟩
  · intro h isMainThread
    unfold endPauseUpdates
    rw [if_pos h]
  · intro h1 h2 hd
    simp [endPauseUpdates, h1, h2, hd]
    split
    · exact ⟨_, [], rfl⟩
    · exact ⟨_, [PauseAction.drainInline], rfl⟩
  · intro h1 h2
    simp [endPauseUpdates, h1, h2, scheduleFlushLoadRequests_scheduledUpdates]

/-- C7 witness: the `endPauseUpdates` theorem evaluated with the concrete
drain `c7Drain` on `emptyManagerState` (assertion case) and `c7State`
(main-thread and worker-thread cases). -/
theorem endPauseUpdates_spec_witness :
    (endPauseUpdates c7Drain true emptyManagerState = none) ∧
    (∃ s' rest, endPauseUpdates c7Drain true c7State =
      some (s', PauseAction.drainInline :: PauseAction.decrementPause ::
        PauseAction.scheduleFlush :: rest)) ∧
    (endPauseUpdates c7Drain false c7State =
      some (scheduleFlushLoadRequests { c7State with pauseUpdatesCount := 0 },
        [PauseAction.decrementPause, PauseAction.scheduleFlush,
          PauseAction.dispatchDrain])) :=
  ⟨(endPauseUpdates_spec c7Drain emptyManagerState).1 rfl true,
    (endPauseUpdates_spec c7Drain c7State).2.1 rfl (by decide) rfl,
    (endPauseUpdates_spec c7Drain c7State).2.2 rfl (by decide)⟩

theorem assocGet_assocErase_self {κ : Type} {α : Type} [DecidableEq κ]
    (l : List (κ × α)) (k : κ) :
    assocGet (assocErase l k) k = none := by
  induction l with
  | nil => rfl
  | cons p rest ih =>
    by_cases hp : p.1 = k
    · have he : assocErase (p :: rest) k = assocErase rest k := by
        simp [assocErase, List.filter, hp]
      rw [he]
      exact ih
    · have he : assocErase (p :: rest) k = p :: assocErase rest k := by
        simp [assocErase, List.filter, hp]
      rw [he, assocGet_cons]
      simp only [hp, if_false]
      exact ih

/-- C8 counterexample: `c8State` holds a URL asset with no consumers and no
live observable — the removal condition holds — and a listener is set.
`updateAsset` removes the asset, yet still reports the update to the
listener, refuting "neither the state dispatch (step 3) nor the listener
notification on_managed_asset_updated (step 4) is performed". -/
theorem updateAsset_removal_counterexample :
    (updateAsset c8State c8Key).removed = true ∧
    c8State.hasListener = true ∧
    (updateAsset c8State c8Key).listenerNotified = true := by
  decide

/-- C8 (amended): when the removal condition holds (no consumers, no live
observable, and the key is a URL or local-asset eviction is enabled),
`updateAsset` removes the managed asset via `removeManagedAssetIfNeeded` and
skips the state dispatch (step 3), but the listener notification
`onManagedAssetUpdated` (step 4) is still performed whenever a listener is
set. -/
theorem updateAsset_removal (s : ManagerState) (assetKey : AssetKey)
    (m : ManagedAsset) (hm : assocGet s.assets assetKey = some m)
    (hcond : (assetKey.isURL = true ∨ s.removeUnusedLocalAssets = true) ∧
      m.consumers = [] ∧ m.hasObservable = false) :
    (updateAsset s assetKey).removed = true ∧
    assocGet (updateAsset s assetKey).state.assets assetKey = none ∧
    (updateAsset s assetKey).dispatch = none ∧
    (updateAsset s assetKey).listenerNotified = s.hasListener := by
  have hneg : ¬ ((¬ assetKey.isURL = true ∧ ¬ s.removeUnusedLocalAssets = true) ∨
      m.consumers ≠ [] ∨ m.hasObservable = true) := by
    rcases hcond with ⟨hurl, hcons, hobs⟩
    rintro (⟨hnu, hnr⟩ | hne | hob)
    · rcases hurl with h | h
      · exact hnu h
      · exact hnr h
    · exact hne hcons
    · rw [hobs] at hob
      exact Bool.false_ne_true hob
  unfold updateAsset
  rw [hm]
  dsimp only
  unfold removeManagedAssetIfNeeded
  rw [if_neg hneg]
  dsimp only
  refine ⟨rfl, ?_, rfl, rfl⟩
  cases hb : s.bytesStoreUrls with
  | none =>
    dsimp only
    exact assocGet_assocErase_self _ _
  | some urls =>
    dsimp only
    split
    · exact assocGet_assocErase_self _ _
    · exact assocGet_assocErase_self _ _

/-- C8 witness: the amended removal theorem evaluated on `c8State`. -/
theorem updateAsset_removal_witness :
    (updateAsset c8State c8Key).removed = true ∧
    assocGet (updateAsset c8State c8Key).state.assets c8Key = none ∧
    (updateAsset c8State c8Key).dispatch = none ∧
    (updateAsset c8State c8Key).listenerNotified = c8State.hasListener :=
  updateAsset_removal c8State c8Key c8Asset rfl (by decide)

end Valdi
